import Mathlib

/-!
Shallow embedding of the core of the py_gql GraphQL runtime, covering the
schema type system (py_gql/schema/types.py), the validation pipeline
(py_gql/validation/validate.py) and the request entry point
(py_gql/_graphql.py).  Each definition is translated from the Python
source; collaborators that live outside those files (parser, executor,
visitor framework, validation rules) are modelled from the specification
where a claim depends on them.
-/

namespace PyGql

/-- Python-level runtime values as far as the embedded code inspects them.
`null` models Python `None`. -/
inductive Value where
  | null
  | int (n : Int)
  | str (s : String)
  | bool (b : Bool)
deriving DecidableEq, Repr

/-- The GraphQL type graph of py_gql/schema/types.py.  Named types
(Scalar, Enum, Object, Interface, Union, InputObject) are compared by
object identity in the source (`self is lhs`; `__hash__` returns
`id(self)`), so the embedding represents a named-type instance by its
identity `id : Nat`.  `ListType` and `NonNullType` are the wrapping
types; the embedding is strict (lazy references are outside the claims
considered here, and the spec states they are indistinguishable from
direct references once resolved). -/
inductive GraphQLType where
  | NamedType (id : Nat)
  | ListType (ty : GraphQLType)
  | NonNullType (ty : GraphQLType)
deriving DecidableEq, Repr

/-- GraphQLType.__eq__ (types.py lines 58-63): `self is lhs` or both
operands are wrapping types of the same class whose inner types compare
equal.  For named types only the identity branch can apply (a named type
is not an instance of ListType or NonNullType); for wrapping types
object identity implies structural equality of the representation, so
the structural branch subsumes the identity branch. -/
def GraphQLType.eq : GraphQLType → GraphQLType → Bool
  | .NamedType i, .NamedType j => i == j
  | .ListType a, .ListType b => GraphQLType.eq a b
  | .NonNullType a, .NonNullType b => GraphQLType.eq a b
  | _, _ => false

/-- True exactly on `isinstance(t, NonNullType)`. -/
def isNonNullType : GraphQLType → Bool
  | .NonNullType _ => true
  | _ => false

/-- True exactly on `isinstance(t, (ListType, NonNullType))`. -/
def isWrappingType : GraphQLType → Bool
  | .ListType _ => true
  | .NonNullType _ => true
  | _ => false

/-- NonNullType.__init__ (types.py lines 114-120): the constructor
asserts that the directly supplied wrapped type is not itself a
NonNullType.  `Option.none` models the AssertionError raised when the
assert fails. -/
def mkNonNullType (t : GraphQLType) : Option GraphQLType :=
  if isNonNullType t then Option.none else some (.NonNullType t)

/-- ListType.__init__ (types.py lines 157-162): never fails.  Returned
as an Option so that constructor compositions chain uniformly. -/
def mkListType (t : GraphQLType) : Option GraphQLType :=
  some (.ListType t)

/-- unwrap_type (types.py lines 1219-1229): recursively strips ListType
and NonNullType wrappers. -/
def unwrap_type : GraphQLType → GraphQLType
  | .ListType t => unwrap_type t
  | .NonNullType t => unwrap_type t
  | t => t

/-- One application of a wrapping constructor, used to quantify over
finite wrapping sequences. -/
inductive Wrapper where
  | wlist
  | wnonnull
deriving DecidableEq, Repr

def applyWrapper : Wrapper → GraphQLType → GraphQLType
  | .wlist, t => .ListType t
  | .wnonnull, t => .NonNullType t

def applyWrappers : List Wrapper → GraphQLType → GraphQLType
  | [], t => t
  | w :: ws, t => applyWrapper w (applyWrappers ws t)

lemma unwrap_type_listType (a : GraphQLType) :
    unwrap_type (GraphQLType.ListType a) = unwrap_type a := rfl

lemma unwrap_type_nonNullType (a : GraphQLType) :
    unwrap_type (GraphQLType.NonNullType a) = unwrap_type a := rfl

lemma unwrap_type_not_wrapping (t : GraphQLType) :
    isWrappingType (unwrap_type t) = false := by
  induction t with
  | NamedType i => rfl
  | ListType a ih => rw [unwrap_type_listType]; exact ih
  | NonNullType a ih => rw [unwrap_type_nonNullType]; exact ih

lemma unwrap_type_idem (t : GraphQLType) :
    unwrap_type (unwrap_type t) = unwrap_type t := by
  induction t with
  | NamedType i => rfl
  | ListType a ih => rw [unwrap_type_listType]; exact ih
  | NonNullType a ih => rw [unwrap_type_nonNullType]; exact ih

lemma unwrap_type_applyWrappers (ws : List Wrapper) (t : GraphQLType) :
    unwrap_type (applyWrappers ws t) = unwrap_type t := by
  induction ws with
  | nil => rfl
  | cons w ws ih =>
      cases w with
      | wlist => rw [applyWrappers, applyWrapper, unwrap_type_listType]; exact ih
      | wnonnull => rw [applyWrappers, applyWrapper, unwrap_type_nonNullType]; exact ih

lemma graphQLType_eq_refl (a : GraphQLType) : a.eq a = true := by
  induction a with
  | NamedType i => simp [GraphQLType.eq]
  | ListType a ih => simpa [GraphQLType.eq] using ih
  | NonNullType a ih => simpa [GraphQLType.eq] using ih

lemma graphQLType_eq_symm (a b : GraphQLType) : a.eq b = b.eq a := by
  induction a generalizing b with
  | NamedType i =>
      cases b with
      | NamedType j =>
          by_cases h : i = j
          · subst h; rfl
          · have h1 : (i == j) = false := beq_eq_false_iff_ne.mpr h
            have h2 : (j == i) = false := beq_eq_false_iff_ne.mpr (Ne.symm h)
            simp [GraphQLType.eq, h1, h2]
      | ListType b => rfl
      | NonNullType b => rfl
  | ListType a ih =>
      cases b with
      | NamedType j => rfl
      | ListType b => simpa [GraphQLType.eq] using ih b
      | NonNullType b => rfl
  | NonNullType a ih =>
      cases b with
      | NamedType j => rfl
      | ListType b => rfl
      | NonNullType b => simpa [GraphQLType.eq] using ih b

/-- Claim C9: for every type built by wrapping a named type in any finite
sequence of ListType and NonNullType constructors, unwrap_type returns
the underlying named type; unwrap_type is idempotent; and the result of
unwrap_type is never a ListType or a NonNullType. -/
theorem unwrap_type_spec :
    (∀ (ws : List Wrapper) (i : Nat),
      unwrap_type (applyWrappers ws (GraphQLType.NamedType i)) = GraphQLType.NamedType i)
    ∧ (∀ t : GraphQLType, unwrap_type (unwrap_type t) = unwrap_type t)
    ∧ (∀ t : GraphQLType, isWrappingType (unwrap_type t) = false) := by
  refine ⟨fun ws i => ?_, unwrap_type_idem, unwrap_type_not_wrapping⟩
  rw [unwrap_type_applyWrappers]; rfl

/-- Claim C10: GraphQLType equality is structural exactly on wrapping
types and identity elsewhere: ListType(a) == ListType(b) iff a == b,
NonNullType(a) == NonNullType(b) iff a == b, a ListType never equals a
NonNullType, two named types are equal iff they are the same instance
(equal identity), and the relation is reflexive and symmetric. -/
theorem graphql_type_eq_spec :
    (∀ a b : GraphQLType, (GraphQLType.ListType a).eq (GraphQLType.ListType b) = a.eq b)
    ∧ (∀ a b : GraphQLType,
        (GraphQLType.NonNullType a).eq (GraphQLType.NonNullType b) = a.eq b)
    ∧ (∀ a b : GraphQLType, (GraphQLType.ListType a).eq (GraphQLType.NonNullType b) = false)
    ∧ (∀ a b : GraphQLType, (GraphQLType.NonNullType a).eq (GraphQLType.ListType b) = false)
    ∧ (∀ i j : Nat, (GraphQLType.NamedType i).eq (GraphQLType.NamedType j) = (i == j))
    ∧ (∀ a : GraphQLType, a.eq a = true)
    ∧ (∀ a b : GraphQLType, a.eq b = b.eq a) := by
  exact ⟨fun a b => rfl, fun a b => rfl, fun a b => rfl, fun a b => rfl,
    fun i j => rfl, graphQLType_eq_refl, graphQLType_eq_symm⟩

/-- Claim C5, counterexample: the claim asserts that the composition
NonNullType(ListType(NonNullType(t))) succeeds for every type t, but for
t itself a NonNullType the inner NonNullType(t) already fails its
assert, so the whole composition fails. -/
theorem mkNonNullType_counterexample :
    Option.bind (mkNonNullType (GraphQLType.NonNullType (GraphQLType.NamedType 0)))
      (fun a => Option.bind (mkListType a) mkNonNullType) = Option.none := rfl

/-- Claim C5 (amended): constructing NonNullType(t) fails exactly when t
is directly a NonNullType, every successful construction yields
NonNullType(t) with t not non-null (so no directly nested
NonNullType(NonNullType(_)) is ever constructed),
NonNullType(ListType(NonNullType(t))) succeeds for every t that is not
itself a NonNullType, and ListType(ListType(t)) succeeds for every t. -/
theorem mkNonNullType_spec :
    (∀ t : GraphQLType, isNonNullType t = true → mkNonNullType t = Option.none)
    ∧ (∀ (t u : GraphQLType), mkNonNullType t = some u →
        u = GraphQLType.NonNullType t ∧ isNonNullType t = false)
    ∧ (∀ t : GraphQLType, isNonNullType t = false →
        (Option.bind (mkNonNullType t)
          (fun a => Option.bind (mkListType a) mkNonNullType)).isSome = true)
    ∧ (∀ t : GraphQLType, (Option.bind (mkListType t) mkListType).isSome = true) := by
  refine ⟨fun t h => ?_, fun t u h => ?_, fun t h => ?_, fun t => rfl⟩
  · simp [mkNonNullType, h]
  · cases t with
    | NamedType i =>
        refine ⟨?_, rfl⟩
        simpa [mkNonNullType, isNonNullType] using h.symm
    | ListType a =>
        refine ⟨?_, rfl⟩
        simpa [mkNonNullType, isNonNullType] using h.symm
    | NonNullType a => simp [mkNonNullType, isNonNullType] at h
  · cases t with
    | NamedType i => rfl
    | ListType a => rfl
    | NonNullType a => simp [isNonNullType] at h

/-- Witness for mkNonNullType_spec at concrete inputs. -/
theorem mkNonNullType_spec_witness :
    mkNonNullType (GraphQLType.NonNullType (GraphQLType.NamedType 0)) = Option.none
    ∧ (Option.bind (mkNonNullType (GraphQLType.NamedType 1))
        (fun a => Option.bind (mkListType a) mkNonNullType)).isSome = true :=
  ⟨mkNonNullType_spec.1 _ rfl, mkNonNullType_spec.2.2.1 _ rfl⟩

/-- Argument (types.py lines 740-791).  `default_value_slot` models the
`_default_value` attribute, with `Option.none` standing for the `_UNSET`
sentinel (Python `None` as a default is `some Value.null`, which the
source distinguishes from `_UNSET`).  `has_default_value` is an ordinary
attribute assigned once in `__init__`. -/
structure Argument where
  name : String
  type_ : GraphQLType
  default_value_slot : Option Value
  has_default_value : Bool
deriving DecidableEq, Repr

/-- Argument.__init__ (types.py lines 740-755): `has_default_value` is
`default_value is not _UNSET`; the slot stores the constructor
argument. -/
def Argument.make (name : String) (type_ : GraphQLType)
    (default_value : Option Value) : Argument :=
  { name := name, type_ := type_, default_value_slot := default_value,
    has_default_value := default_value.isSome }

/-- default_value setter (types.py lines 763-765): assigns
`_default_value` only; `has_default_value` is not touched. -/
def Argument.set_default_value (a : Argument) (v : Value) : Argument :=
  { a with default_value_slot := some v }

/-- default_value deleter (types.py lines 767-769): resets
`_default_value` to `_UNSET`; `has_default_value` is not touched. -/
def Argument.delete_default_value (a : Argument) : Argument :=
  { a with default_value_slot := Option.none }

/-- required property (types.py lines 781-785):
`isinstance(self.type, NonNullType) and self._default_value is _UNSET`. -/
def Argument.required (a : Argument) : Bool :=
  isNonNullType a.type_ && a.default_value_slot.isNone

/-- InputField (types.py lines 219-264): structurally identical to
Argument, including the same `__init__`, setter, deleter and `required`
property. -/
structure InputField where
  name : String
  type_ : GraphQLType
  default_value_slot : Option Value
  has_default_value : Bool
deriving DecidableEq, Repr

def InputField.make (name : String) (type_ : GraphQLType)
    (default_value : Option Value) : InputField :=
  { name := name, type_ := type_, default_value_slot := default_value,
    has_default_value := default_value.isSome }

def InputField.set_default_value (f : InputField) (v : Value) : InputField :=
  { f with default_value_slot := some v }

def InputField.delete_default_value (f : InputField) : InputField :=
  { f with default_value_slot := Option.none }

def InputField.required (f : InputField) : Bool :=
  isNonNullType f.type_ && f.default_value_slot.isNone

/-- Claim C3: the code contradicts its own documentation.  After
constructing an Argument (or InputField) of NonNull type with a default
value and then deleting the default through the documented deleter,
`required` is True while `has_default_value` is still True (the deleter
only resets `_default_value`), so the claimed equivalence
required == (type is NonNull and not has_default_value) fails even
though the type is NonNull.  The same happens for the setter in the
opposite direction. -/
theorem argument_required_stale_after_delete :
    ((Argument.make "a" (GraphQLType.NonNullType (GraphQLType.NamedType 0))
        (some (Value.int 5))).delete_default_value.required = true)
    ∧ ((Argument.make "a" (GraphQLType.NonNullType (GraphQLType.NamedType 0))
        (some (Value.int 5))).delete_default_value.has_default_value = true)
    ∧ ((InputField.make "f" (GraphQLType.NonNullType (GraphQLType.NamedType 0))
        (some (Value.int 5))).delete_default_value.required = true)
    ∧ ((InputField.make "f" (GraphQLType.NonNullType (GraphQLType.NamedType 0))
        (some (Value.int 5))).delete_default_value.has_default_value = true)
    ∧ ((Argument.make "b" (GraphQLType.NonNullType (GraphQLType.NamedType 0))
        Option.none).set_default_value (Value.int 1)).required = false
    ∧ ((Argument.make "b" (GraphQLType.NonNullType (GraphQLType.NamedType 0))
        Option.none).set_default_value (Value.int 1)).has_default_value = false :=
  ⟨rfl, rfl, rfl, rfl, rfl, rfl⟩

/-- Enum value definition (types.py lines 348-429), after conversion by
EnumValue.from_def: a name together with the Python internal value. -/
structure EnumValue where
  name : String
  value : Value
deriving DecidableEq, Repr

/-- `v.name not in self._values` test of EnumType._set_values: the name
is already used by one of the values processed so far. -/
def enumNameTaken (acc : List EnumValue) (n : String) : Bool :=
  acc.any (fun w => w.name == n)

/-- EnumType._set_values (types.py lines 484-500): processes the values
in order, asserting that each name was not seen before.  `Option.none`
models the AssertionError "Duplicate enum value". -/
def setValuesAux : List EnumValue → List EnumValue → Option (List EnumValue)
  | acc, [] => some acc
  | acc, v :: rest =>
      if enumNameTaken acc v.name then Option.none
      else setValuesAux (acc ++ [v]) rest

/-- Enum type (types.py lines 432-541), reduced to the data the claims
inspect: the name and the processed list of values (`self.values`). -/
structure EnumType where
  name : String
  values : List EnumValue
deriving DecidableEq, Repr

/-- EnumType.__init__ (types.py lines 465-482), going through
_set_values; fails (AssertionError, modelled as Option.none) on a
duplicate value name. -/
def EnumType.make (name : String) (values : List EnumValue) : Option EnumType :=
  (setValuesAux [] values).map (fun vs => { name := name, values := vs })

/-- EnumType.get_value (types.py lines 502-520): look the name up in
`self._values` (names are unique so the first match is the only one) and
return its `.value`; an unknown name raises UnknownEnumValue, modelled
as `Except.error` carrying the source's message. -/
def EnumType.get_value (e : EnumType) (n : String) : Except String Value :=
  match e.values.find? (fun v => v.name == n) with
  | some v => Except.ok v.value
  | Option.none => Except.error ("Invalid name " ++ n ++ " for enum " ++ e.name)

/-- Pairwise distinctness of the value names, the invariant
_set_values enforces. -/
def distinctNames : List EnumValue → Bool
  | [] => true
  | v :: rest => !(enumNameTaken rest v.name) && distinctNames rest

lemma enumNameTaken_append (l₁ l₂ : List EnumValue) (n : String) :
    enumNameTaken (l₁ ++ l₂) n = (enumNameTaken l₁ n || enumNameTaken l₂ n) := by
  simp [enumNameTaken, List.any_append]

lemma enumNameTaken_eq_false_iff (l : List EnumValue) (n : String) :
    enumNameTaken l n = false ↔ ∀ w ∈ l, (w.name == n) = false := by
  simp [enumNameTaken, List.any_eq_false]

lemma setValuesAux_some (rest : List EnumValue) :
    ∀ acc out, setValuesAux acc rest = some out → out = acc ++ rest := by
  induction rest with
  | nil => intro acc out h; simpa [setValuesAux] using h.symm
  | cons v rest ih =>
      intro acc out h
      rw [setValuesAux] at h
      by_cases ht : enumNameTaken acc v.name
      · simp [ht] at h
      · simp only [ht, if_neg, Bool.false_eq_true, if_false] at h
        have := ih (acc ++ [v]) out h
        simpa using this

lemma setValuesAux_isSome_distinct (rest : List EnumValue) :
    ∀ acc, (setValuesAux acc rest).isSome = true →
      distinctNames rest = true ∧ ∀ v ∈ rest, enumNameTaken acc v.name = false := by
  induction rest with
  | nil => intro acc _; exact ⟨rfl, by intro v hv; cases hv⟩
  | cons v rest ih =>
      intro acc h
      rw [setValuesAux] at h
      by_cases ht : enumNameTaken acc v.name
      · simp [ht] at h
      · simp only [Bool.not_eq_true] at ht
        simp only [ht, Bool.false_eq_true, if_false] at h
        obtain ⟨hdist, hacc⟩ := ih (acc ++ [v]) h
        have hrest_acc : ∀ w ∈ rest, enumNameTaken acc w.name = false := by
          intro w hw
          have := hacc w hw
          rw [enumNameTaken_append] at this
          exact (Bool.or_eq_false_iff.mp this).1
        have hrest_v : ∀ w ∈ rest, (v.name == w.name) = false := by
          intro w hw
          have := hacc w hw
          rw [enumNameTaken_append] at this
          have h2 := (Bool.or_eq_false_iff.mp this).2
          rw [enumNameTaken_eq_false_iff] at h2
          exact h2 v (by simp)
        constructor
        · have htk : enumNameTaken rest v.name = false := by
            rw [enumNameTaken_eq_false_iff]
            intro w hw
            exact beq_eq_false_iff_ne.mpr
              (Ne.symm (beq_eq_false_iff_ne.mp (hrest_v w hw)))
          rw [distinctNames, htk, hdist]
          rfl
        · intro w hw
          rcases List.mem_cons.mp hw with h1 | h1
          · subst h1; exact ht
          · exact hrest_acc w h1

lemma setValuesAux_none_of_taken (rest : List EnumValue) :
    ∀ acc, (∃ w ∈ rest, enumNameTaken acc w.name = true) →
      setValuesAux acc rest = Option.none := by
  induction rest with
  | nil => intro acc h; rcases h with ⟨w, hw, _⟩; cases hw
  | cons v rest ih =>
      intro acc h
      rw [setValuesAux]
      by_cases ht : enumNameTaken acc v.name
      · simp [ht]
      · simp only [ht, Bool.false_eq_true, if_false]
        rcases h with ⟨w, hw, hwt⟩
        rcases List.mem_cons.mp hw with h1 | h1
        · subst h1; exact absurd hwt ht
        · refine ih (acc ++ [v]) ⟨w, h1, ?_⟩
          rw [enumNameTaken_append, hwt, Bool.true_or]

lemma setValuesAux_none_of_not_distinct (rest : List EnumValue) :
    ∀ acc, distinctNames rest = false → setValuesAux acc rest = Option.none := by
  induction rest with
  | nil => intro acc h; cases h
  | cons v rest ih =>
      intro acc h
      rw [distinctNames] at h
      rcases Bool.and_eq_false_iff.mp h with h1 | h1
      · have h1' : enumNameTaken rest v.name = true := by simpa using h1
        rw [enumNameTaken] at h1'
        rcases List.any_eq_true.mp h1' with ⟨w, hw, hwn⟩
        rw [setValuesAux]
        by_cases ht : enumNameTaken acc v.name
        · simp [ht]
        · simp only [ht, Bool.false_eq_true, if_false]
          refine setValuesAux_none_of_taken rest (acc ++ [v]) ⟨w, hw, ?_⟩
          rw [enumNameTaken_append]
          have hsym : (v.name == w.name) = true :=
            beq_iff_eq.mpr (beq_iff_eq.mp hwn).symm
          have hv1 : enumNameTaken [v] w.name = true := by
            simp [enumNameTaken, hsym]
          rw [hv1, Bool.or_true]
      · rw [setValuesAux]
        by_cases ht : enumNameTaken acc v.name
        · simp [ht]
        · simp only [ht, Bool.false_eq_true, if_false]
          exact ih (acc ++ [v]) h1

lemma find?_of_distinct (vs : List EnumValue) (hd : distinctNames vs = true) :
    ∀ v ∈ vs, vs.find? (fun w => w.name == v.name) = some v := by
  induction vs with
  | nil => intro v hv; cases hv
  | cons v₀ rest ih =>
      intro v hv
      rw [distinctNames] at hd
      simp only [Bool.and_eq_true, Bool.not_eq_true'] at hd
      obtain ⟨hne, hrest⟩ := hd
      rw [enumNameTaken_eq_false_iff] at hne
      rcases List.mem_cons.mp hv with h1 | h1
      · subst h1
        rw [List.find?_cons]
        simp
      · have hne₀ : (v₀.name == v.name) = false := by
          have := hne v h1
          exact beq_eq_false_iff_ne.mpr (Ne.symm (beq_eq_false_iff_ne.mp this))
        rw [List.find?_cons, hne₀]
        exact ih hrest v h1

/-- Claim C8: constructing an EnumType whose values contain a duplicate
name fails; for every successfully constructed EnumType the value names
are pairwise distinct, get_value returns the declared internal value for
every declared name, and get_value fails with UnknownEnumValue (carrying
the source's message) for every undeclared name. -/
theorem enum_type_spec :
    (∀ (nm : String) (vs : List EnumValue),
      distinctNames vs = false → EnumType.make nm vs = Option.none)
    ∧ (∀ (nm : String) (vs : List EnumValue) (e : EnumType),
        EnumType.make nm vs = some e →
          e.name = nm ∧ e.values = vs ∧ distinctNames vs = true
          ∧ (∀ v ∈ vs, e.get_value v.name = Except.ok v.value)
          ∧ (∀ n : String, enumNameTaken vs n = false →
              e.get_value n = Except.error ("Invalid name " ++ n ++ " for enum " ++ nm))) := by
  constructor
  · intro nm vs h
    rw [EnumType.make, setValuesAux_none_of_not_distinct vs [] h]
    rfl
  · intro nm vs e h
    rw [EnumType.make] at h
    cases hs : setValuesAux [] vs with
    | none => rw [hs] at h; cases h
    | some out =>
        have hout : out = vs := by simpa using setValuesAux_some vs [] out hs
        rw [hs, hout] at h
        have he : e = { name := nm, values := vs } := by
          simpa using h.symm
        subst he
        have hd : distinctNames vs = true :=
          (setValuesAux_isSome_distinct vs [] (by rw [hs]; rfl)).1
        refine ⟨rfl, rfl, hd, ?_, ?_⟩
        · intro v hv
          rw [EnumType.get_value]
          rw [show ({ name := nm, values := vs } : EnumType).values = vs from rfl]
          rw [find?_of_distinct vs hd v hv]
        · intro n hn
          rw [EnumType.get_value]
          rw [show ({ name := nm, values := vs } : EnumType).values = vs from rfl]
          rw [enumNameTaken_eq_false_iff] at hn
          rw [List.find?_eq_none.mpr (by intro w hw; simp [hn w hw])]

/-- Witness for enum_type_spec at concrete inputs: a duplicate name is
rejected, and on a concrete two-value enum get_value returns the
declared values and errors on an undeclared name. -/
theorem enum_type_spec_witness :
    EnumType.make "Dup" [⟨"A", Value.int 0⟩, ⟨"A", Value.int 1⟩] = Option.none
    ∧ EnumType.get_value { name := "Color", values := [⟨"RED", Value.int 0⟩, ⟨"GREEN", Value.int 1⟩] }
        "GREEN" = Except.ok (Value.int 1)
    ∧ EnumType.get_value { name := "Color", values := [⟨"RED", Value.int 0⟩, ⟨"GREEN", Value.int 1⟩] }
        "BLUE" = Except.error "Invalid name BLUE for enum Color" := by
  refine ⟨enum_type_spec.1 "Dup" _ (by decide), ?_, ?_⟩
  · exact (enum_type_spec.2 "Color" [⟨"RED", Value.int 0⟩, ⟨"GREEN", Value.int 1⟩] _
      rfl).2.2.2.1 ⟨"GREEN", Value.int 1⟩ (by simp)
  · exact (enum_type_spec.2 "Color" [⟨"RED", Value.int 0⟩, ⟨"GREEN", Value.int 1⟩] _
      rfl).2.2.2.2 "BLUE" (by decide)

/-- Python exceptions as far as ScalarType.serialize/parse inspect them:
the two caught built-in exception classes, the two typed wrapper
exceptions from py_gql.exc, and any other exception. -/
inductive PyExc where
  | ValueError (msg : String)
  | TypeError (msg : String)
  | ScalarSerializationError (msg : String)
  | ScalarParsingError (msg : String)
  | Other (msg : String)
deriving DecidableEq, Repr

/-- Scalar type (types.py lines 549-697), reduced to the data the claims
inspect: the name and the user-provided `_serialize` and `_parse`
callables.  A user callable either returns a value or raises an
exception, modelled as `Except PyExc Value`. -/
structure ScalarType where
  name : String
  serialize_fn : Value → Except PyExc Value
  parse_fn : Value → Except PyExc Value

/-- ScalarType.serialize (types.py lines 635-651): call `_serialize`;
catch ValueError and TypeError and re-raise them as
ScalarSerializationError carrying `str(err)`; any other exception
(including a ScalarSerializationError raised directly by the user
callable) propagates unchanged. -/
def ScalarType.serialize (s : ScalarType) (v : Value) : Except PyExc Value :=
  match s.serialize_fn v with
  | Except.ok r => Except.ok r
  | Except.error (PyExc.ValueError m) => Except.error (PyExc.ScalarSerializationError m)
  | Except.error (PyExc.TypeError m) => Except.error (PyExc.ScalarSerializationError m)
  | Except.error e => Except.error e

/-- ScalarType.parse (types.py lines 653-669): call `_parse`; catch
ValueError and TypeError and re-raise them as ScalarParsingError
carrying `str(err)`; any other exception propagates unchanged. -/
def ScalarType.parse (s : ScalarType) (v : Value) : Except PyExc Value :=
  match s.parse_fn v with
  | Except.ok r => Except.ok r
  | Except.error (PyExc.ValueError m) => Except.error (PyExc.ScalarParsingError m)
  | Except.error (PyExc.TypeError m) => Except.error (PyExc.ScalarParsingError m)
  | Except.error e => Except.error e

/-- The outcome raised a ScalarSerializationError. -/
def raisesScalarSerializationError : Except PyExc Value → Bool
  | Except.error (PyExc.ScalarSerializationError _) => true
  | _ => false

/-- The outcome raised a ScalarParsingError. -/
def raisesScalarParsingError : Except PyExc Value → Bool
  | Except.error (PyExc.ScalarParsingError _) => true
  | _ => false

/-- The outcome raised a ValueError or a TypeError (the exceptions the
try/except blocks of serialize and parse catch). -/
def raisesValueOrTypeError : Except PyExc Value → Bool
  | Except.error (PyExc.ValueError _) => true
  | Except.error (PyExc.TypeError _) => true
  | _ => false

/-- A scalar whose user serializer and parser raise the typed wrapper
exceptions directly, which the source's docstring explicitly permits. -/
def directErrorScalar : ScalarType :=
  { name := "Direct",
    serialize_fn := fun _ => Except.error (PyExc.ScalarSerializationError "boom"),
    parse_fn := fun _ => Except.error (PyExc.ScalarParsingError "boom") }

/-- Claim C7, counterexample: the claim says serialize raises
ScalarSerializationError exactly when the user serializer raises
ValueError or TypeError, but a user serializer that raises
ScalarSerializationError directly makes serialize raise
ScalarSerializationError without having raised ValueError or TypeError
(and symmetrically for parse). -/
theorem scalar_serialize_counterexample :
    raisesScalarSerializationError (directErrorScalar.serialize (Value.int 0)) = true
    ∧ raisesValueOrTypeError (directErrorScalar.serialize_fn (Value.int 0)) = false
    ∧ raisesScalarParsingError (directErrorScalar.parse (Value.int 0)) = true
    ∧ raisesValueOrTypeError (directErrorScalar.parse_fn (Value.int 0)) = false :=
  ⟨rfl, rfl, rfl, rfl⟩

/-- Claim C7 (amended): serialize returns the user serializer's result
when it succeeds, and raises ScalarSerializationError exactly when the
user serializer raises ValueError, TypeError (both wrapped, message
preserved) or ScalarSerializationError itself (propagated unchanged);
symmetrically, parse returns the user parser's result on success and
raises ScalarParsingError exactly when the user parser raises
ValueError, TypeError or ScalarParsingError itself. -/
theorem scalar_serialize_parse_spec :
    (∀ (s : ScalarType) (v : Value) (r : Value),
      s.serialize_fn v = Except.ok r → s.serialize v = Except.ok r)
    ∧ (∀ (s : ScalarType) (v : Value),
        raisesScalarSerializationError (s.serialize v)
          = (raisesValueOrTypeError (s.serialize_fn v)
              || raisesScalarSerializationError (s.serialize_fn v)))
    ∧ (∀ (s : ScalarType) (v : Value) (m : String),
        s.serialize_fn v = Except.error (PyExc.ValueError m)
          ∨ s.serialize_fn v = Except.error (PyExc.TypeError m) →
        s.serialize v = Except.error (PyExc.ScalarSerializationError m))
    ∧ (∀ (s : ScalarType) (v : Value) (r : Value),
        s.parse_fn v = Except.ok r → s.parse v = Except.ok r)
    ∧ (∀ (s : ScalarType) (v : Value),
        raisesScalarParsingError (s.parse v)
          = (raisesValueOrTypeError (s.parse_fn v)
              || raisesScalarParsingError (s.parse_fn v)))
    ∧ (∀ (s : ScalarType) (v : Value) (m : String),
        s.parse_fn v = Except.error (PyExc.ValueError m)
          ∨ s.parse_fn v = Except.error (PyExc.TypeError m) →
        s.parse v = Except.error (PyExc.ScalarParsingError m)) := by
  refine ⟨fun s v r h => ?_, fun s v => ?_, fun s v m h => ?_,
    fun s v r h => ?_, fun s v => ?_, fun s v m h => ?_⟩
  · rw [ScalarType.serialize, h]
  · rw [ScalarType.serialize]
    cases hu : s.serialize_fn v with
    | ok r => simp [raisesScalarSerializationError, raisesValueOrTypeError]
    | error e =>
        cases e <;>
          simp [raisesScalarSerializationError, raisesValueOrTypeError]
  · rcases h with h | h <;> rw [ScalarType.serialize, h]
  · rw [ScalarType.parse, h]
  · rw [ScalarType.parse]
    cases hu : s.parse_fn v with
    | ok r => simp [raisesScalarParsingError, raisesValueOrTypeError]
    | error e =>
        cases e <;>
          simp [raisesScalarParsingError, raisesValueOrTypeError]
  · rcases h with h | h <;> rw [ScalarType.parse, h]

/-- Witness for scalar_serialize_parse_spec at a concrete scalar whose
serializer succeeds on booleans and raises ValueError otherwise. -/
theorem scalar_serialize_parse_spec_witness :
    (ScalarType.serialize
      { name := "B",
        serialize_fn := fun v => match v with
          | Value.bool b => Except.ok (Value.bool b)
          | _ => Except.error (PyExc.ValueError "not a bool"),
        parse_fn := fun v => match v with
          | Value.bool b => Except.ok (Value.bool b)
          | _ => Except.error (PyExc.TypeError "not a bool") }
      (Value.bool true) = Except.ok (Value.bool true))
    ∧ (ScalarType.parse
      { name := "B",
        serialize_fn := fun v => match v with
          | Value.bool b => Except.ok (Value.bool b)
          | _ => Except.error (PyExc.ValueError "not a bool"),
        parse_fn := fun v => match v with
          | Value.bool b => Except.ok (Value.bool b)
          | _ => Except.error (PyExc.TypeError "not a bool") }
      (Value.int 3) = Except.error (PyExc.ScalarParsingError "not a bool")) :=
  ⟨scalar_serialize_parse_spec.1 _ (Value.bool true) (Value.bool true) rfl,
    scalar_serialize_parse_spec.2.2.2.2.2 _ (Value.int 3) "not a bool" (Or.inr rfl)⟩

/-- Modelled from the spec: the document AST (spec section 3) is an
immutable tree of tagged nodes; the parser is outside src, so only the
tree shape matters here. -/
inductive Node where
  | mk (kind : Nat) (children : List Node)
deriving Repr

/-- Modelled from the spec: the schema is shared read-only state
(spec section 5); its contents are opaque to the claims below, so an
instance is represented by its identity. -/
structure Schema where
  id : Nat
deriving DecidableEq, Repr

/-- Raw variables map, JSON-decoded per the request surface. -/
def Vars : Type := List (String × Value)

/-- Modelled from the spec: the error taxonomy of spec section 7.  These
are the GraphQLResponseError kinds that the entry point can place in a
GraphQLResult's errors list. -/
inductive GError where
  | syntaxError (msg : String)
  | validationError (msg : String)
  | variablesCoercionError (msg : String)
  | executionError (msg : String)
deriving DecidableEq, Repr

/-- Modelled from the spec: GraphQLResult is the response wrapper
`(data, errors)` of spec section 6 (the execution module is outside
src). -/
structure GraphQLResult where
  data : Option Value
  errors : List GError
deriving DecidableEq, Repr

/-- A validator callable as typed in validate.py lines 23-25:
`(schema, document, variables) -> iterable of errors`. -/
def Validator : Type := Schema → Node → Option Vars → List GError

/-- ValidationResult (validate.py lines 57-71): wraps the error list. -/
structure ValidationResult where
  errors : List GError
deriving DecidableEq, Repr

/-- ValidationResult.__bool__ (validate.py lines 67-68):
`not self.errors`, i.e. truthy exactly when there are no errors. -/
def ValidationResult.toBool (vr : ValidationResult) : Bool :=
  vr.errors.isEmpty

/-- The list comprehension of validate.py lines 138-142: all errors of
all validators, in validator order then per-validator order. -/
def collectErrors (schema : Schema) (document : Node) (vars : Option Vars) :
    List Validator → List GError
  | [] => []
  | f :: fs => f schema document vars ++ collectErrors schema document vars fs

/-- validate_ast (validate.py lines 104-143): run every validator on
(schema, document, variables) and wrap the concatenated errors in a
ValidationResult.  The source defaults a validators argument of None to
the single default_validator; the embedding receives the resolved
validator list. -/
def validate_ast (schema : Schema) (document : Node)
    (validators : List Validator) (vars : Option Vars) : ValidationResult :=
  { errors := collectErrors schema document vars validators }

/-- Modelled from the spec: validation takes the schema and the document
as read-only inputs (spec sections 4.D and 8, invariant 4: visitors
never mutate the AST and validate_ast is pure).  The state-threading
wrapper makes the absence of mutation statable: it returns the
schema/document state alongside the result. -/
def validate_ast_run (state : Schema × Node)
    (validators : List Validator) (vars : Option Vars) :
    (Schema × Node) × ValidationResult :=
  (state, validate_ast state.1 state.2 validators vars)

/-- Modelled from the spec: the executor (outside src) either returns a
GraphQLResult or raises VariablesCoercionError (carrying a list of
coercion errors, cf. `err.errors` at _graphql.py line 99) or
ExecutionError. -/
inductive ExecOutcome where
  | ok (r : GraphQLResult)
  | raisesVariablesCoercion (errs : List GError)
  | raisesExecution (e : GError)

/-- do_graphql (_graphql.py lines 19-101).  The collaborators outside
src are supplied as outcomes: `parsed` is the outcome of
`parse(document, allow_type_system=False)` (a document or a
GraphQLSyntaxError), and `exec` is the outcome of `execute(...)` on the
parsed document and the raw variables.  The control flow mirrors the
source: on a syntax error return GraphQLResult(errors=[err]); otherwise
validate with `validate_ast(schema, ast, validators=validators)` (the
source does not forward the variables to validation) and refuse
execution when the ValidationResult is falsy; otherwise execute, turning
a VariablesCoercionError into GraphQLResult(None, err.errors) and an
ExecutionError into GraphQLResult(None, [err]). -/
def do_graphql (schema : Schema) (parsed : Except GError Node)
    (validators : List Validator) (vars : Option Vars)
    (execFn : Node → Option Vars → ExecOutcome) : GraphQLResult :=
  match parsed with
  | Except.error err => { data := Option.none, errors := [err] }
  | Except.ok ast =>
      let vr := validate_ast schema ast validators Option.none
      if vr.toBool then
        match execFn ast vars with
        | ExecOutcome.ok r => r
        | ExecOutcome.raisesVariablesCoercion errs =>
            { data := Option.none, errors := errs }
        | ExecOutcome.raisesExecution e =>
            { data := Option.none, errors := [e] }
      else
        { data := Option.none, errors := vr.errors }

/-- Modelled from the spec: a callback event of the visitor contract of
spec section 4.D, tagged with the identity of the visitor receiving
it. -/
inductive VisitEvent where
  | enter (visitor : Nat) (node : Node)
  | leave (visitor : Nat) (node : Node)
deriving Repr

/-- Modelled from the spec: ParallelVisitor delivers `enter` for a node
to the composed visitors in list order; a visitor that is currently
skipping (per the skip-subtree control) receives no callbacks, which the
`act` predicate captures. -/
def deliverEnter (ids : List Nat) (act : Nat → Node → Bool) (n : Node) :
    List VisitEvent :=
  (ids.filter (fun v => act v n)).map (fun v => VisitEvent.enter v n)

/-- Modelled from the spec: ParallelVisitor delivers `leave` in reverse
order of the composed visitors. -/
def deliverLeave (ids : List Nat) (act : Nat → Node → Bool) (n : Node) :
    List VisitEvent :=
  ((ids.filter (fun v => act v n)).reverse).map (fun v => VisitEvent.leave v n)

mutual

/-- Modelled from the spec: depth-first document-order traversal; every
node contributes its enter deliveries, then the subtrees, then its leave
deliveries. -/
def visitTrace (ids : List Nat) (act : Nat → Node → Bool) : Node → List VisitEvent
  | Node.mk k cs =>
      deliverEnter ids act (Node.mk k cs)
        ++ visitTraceList ids act cs
        ++ deliverLeave ids act (Node.mk k cs)

def visitTraceList (ids : List Nat) (act : Nat → Node → Bool) :
    List Node → List VisitEvent
  | [] => []
  | c :: cs => visitTrace ids act c ++ visitTraceList ids act cs

end

/-- default_validator (validate.py lines 74-101) composes the visitors
as `ParallelVisitor(type_info, *visitors)`: the TypeInfoVisitor comes
first, followed by the rule visitors in rule order. -/
def defaultValidatorOrder (typeInfoId : Nat) (ruleIds : List Nat) : List Nat :=
  typeInfoId :: ruleIds

/-- Claim C6: in default_validator the TypeInfoVisitor is first in the
ParallelVisitor, so on every node its enter delivery precedes every
rule's enter delivery and its leave delivery follows every rule's leave
delivery (leave being delivered in reverse order); and each node of a
traversed document contributes exactly such an enter block and leave
block around its subtree. -/
theorem default_validator_type_info_first :
    ∀ (typeInfoId : Nat) (ruleIds : List Nat) (act : Nat → Node → Bool) (n : Node),
      act typeInfoId n = true →
      deliverEnter (defaultValidatorOrder typeInfoId ruleIds) act n
        = VisitEvent.enter typeInfoId n :: deliverEnter ruleIds act n
      ∧ deliverLeave (defaultValidatorOrder typeInfoId ruleIds) act n
        = deliverLeave ruleIds act n ++ [VisitEvent.leave typeInfoId n]
      ∧ (∀ (k : Nat) (cs : List Node),
          visitTrace (defaultValidatorOrder typeInfoId ruleIds) act (Node.mk k cs)
            = deliverEnter (defaultValidatorOrder typeInfoId ruleIds) act (Node.mk k cs)
              ++ visitTraceList (defaultValidatorOrder typeInfoId ruleIds) act cs
              ++ deliverLeave (defaultValidatorOrder typeInfoId ruleIds) act (Node.mk k cs)) := by
  intro ti rules act n h
  refine ⟨?_, ?_, ?_⟩
  · simp [deliverEnter, defaultValidatorOrder, List.filter_cons, h]
  · simp [deliverLeave, defaultValidatorOrder, List.filter_cons, h]
  · intro k cs
    rw [visitTrace]

/-- Witness for default_validator_type_info_first at a concrete visitor
list and node. -/
theorem default_validator_type_info_first_witness :
    deliverEnter (defaultValidatorOrder 0 [1, 2]) (fun _ _ => true) (Node.mk 5 [])
      = VisitEvent.enter 0 (Node.mk 5 [])
        :: deliverEnter [1, 2] (fun _ _ => true) (Node.mk 5 [])
    ∧ deliverLeave (defaultValidatorOrder 0 [1, 2]) (fun _ _ => true) (Node.mk 5 [])
      = deliverLeave [1, 2] (fun _ _ => true) (Node.mk 5 [])
        ++ [VisitEvent.leave 0 (Node.mk 5 [])] :=
  ⟨(default_validator_type_info_first 0 [1, 2] (fun _ _ => true) (Node.mk 5 []) rfl).1,
    (default_validator_type_info_first 0 [1, 2] (fun _ _ => true) (Node.mk 5 []) rfl).2.1⟩

/-- Claim C4: validate_ast is deterministic: two calls on equal inputs
return ValidationResults containing the same errors in the same order;
and the run leaves the schema and the document state unchanged. -/
theorem validate_ast_pure :
    (∀ (schema schema' : Schema) (document document' : Node)
      (validators validators' : List Validator) (vars vars' : Option Vars),
      schema = schema' → document = document' → validators = validators' →
      vars = vars' →
      (validate_ast schema document validators vars).errors
        = (validate_ast schema' document' validators' vars').errors)
    ∧ (∀ (state : Schema × Node) (validators : List Validator)
        (vars : Option Vars),
        (validate_ast_run state validators vars).1 = state) := by
  constructor
  · intro s s' d d' vs vs' va va' hs hd hv hva
    rw [hs, hd, hv, hva]
  · intro state vs va
    rfl

/-- Witness for validate_ast_pure at a concrete schema, document and
validator list. -/
theorem validate_ast_pure_witness :
    (validate_ast { id := 0 } (Node.mk 0 [])
      [fun _ _ _ => [GError.validationError "e"]] Option.none).errors
      = (validate_ast { id := 0 } (Node.mk 0 [])
      [fun _ _ _ => [GError.validationError "e"]] Option.none).errors :=
  validate_ast_pure.1 _ _ _ _ _ _ _ _ rfl rfl rfl rfl

/-- Claim C1: do_graphql always returns a GraphQLResult (the embedding
is a total function into GraphQLResult) and each failure mode lands in
the result's errors list instead of propagating: a GraphQLSyntaxError
from parsing yields errors=[err], validation errors yield the validation
error list, a VariablesCoercionError raised by execution yields its
error list, and an ExecutionError yields errors=[err]. -/
theorem do_graphql_catches :
    ∀ (schema : Schema) (parsed : Except GError Node)
      (validators : List Validator) (vars : Option Vars)
      (execFn : Node → Option Vars → ExecOutcome),
      (∀ err : GError, parsed = Except.error err →
        do_graphql schema parsed validators vars execFn
          = { data := Option.none, errors := [err] })
      ∧ (∀ ast : Node, parsed = Except.ok ast →
          (validate_ast schema ast validators Option.none).toBool = false →
          do_graphql schema parsed validators vars execFn
            = { data := Option.none,
                errors := (validate_ast schema ast validators Option.none).errors })
      ∧ (∀ (ast : Node) (errs : List GError), parsed = Except.ok ast →
          (validate_ast schema ast validators Option.none).toBool = true →
          execFn ast vars = ExecOutcome.raisesVariablesCoercion errs →
          do_graphql schema parsed validators vars execFn
            = { data := Option.none, errors := errs })
      ∧ (∀ (ast : Node) (e : GError), parsed = Except.ok ast →
          (validate_ast schema ast validators Option.none).toBool = true →
          execFn ast vars = ExecOutcome.raisesExecution e →
          do_graphql schema parsed validators vars execFn
            = { data := Option.none, errors := [e] }) := by
  intro schema parsed validators vars execFn
  refine ⟨fun err h => ?_, fun ast h hv => ?_, fun ast errs h hv he => ?_,
    fun ast e h hv he => ?_⟩
  · subst h; rfl
  · subst h; simp [do_graphql, hv]
  · subst h; simp [do_graphql, hv, he]
  · subst h; simp [do_graphql, hv, he]

/-- Witness for do_graphql_catches: the syntax-error, execution-error
and variables-coercion-error paths at concrete inputs. -/
theorem do_graphql_catches_witness :
    do_graphql { id := 0 } (Except.error (GError.syntaxError "bad")) [] Option.none
      (fun _ _ => ExecOutcome.ok { data := Option.none, errors := [] })
      = { data := Option.none, errors := [GError.syntaxError "bad"] }
    ∧ do_graphql { id := 0 } (Except.ok (Node.mk 0 [])) [] Option.none
      (fun _ _ => ExecOutcome.raisesExecution (GError.executionError "x"))
      = { data := Option.none, errors := [GError.executionError "x"] }
    ∧ do_graphql { id := 0 } (Except.ok (Node.mk 0 [])) [] Option.none
      (fun _ _ => ExecOutcome.raisesVariablesCoercion [GError.variablesCoercionError "v"])
      = { data := Option.none, errors := [GError.variablesCoercionError "v"] } :=
  ⟨(do_graphql_catches _ _ _ _ _).1 _ rfl,
    (do_graphql_catches _ _ _ _ _).2.2.2 _ _ rfl rfl rfl,
    (do_graphql_catches _ _ _ _ _).2.2.1 _ _ rfl rfl rfl⟩

/-- Claim C2: when validation reports at least one error, do_graphql
returns a GraphQLResult whose errors are exactly the errors of
validate_ast, and the execute step is never invoked: the result is
independent of the execute outcome and carries no data. -/
theorem do_graphql_refuses_invalid :
    ∀ (schema : Schema) (ast : Node) (validators : List Validator)
      (vars : Option Vars)
      (execFn execFn' : Node → Option Vars → ExecOutcome),
      (validate_ast schema ast validators Option.none).toBool = false →
      do_graphql schema (Except.ok ast) validators vars execFn
        = { data := Option.none,
            errors := (validate_ast schema ast validators Option.none).errors }
      ∧ do_graphql schema (Except.ok ast) validators vars execFn
        = do_graphql schema (Except.ok ast) validators vars execFn' := by
  intro schema ast validators vars execFn execFn' hv
  constructor
  · simp [do_graphql, hv]
  · simp [do_graphql, hv]

/-- Witness for do_graphql_refuses_invalid: a validator reporting one
error makes the result carry exactly that error, identically for two
execute outcomes that would otherwise differ. -/
theorem do_graphql_refuses_invalid_witness :
    do_graphql { id := 0 } (Except.ok (Node.mk 0 []))
      [fun _ _ _ => [GError.validationError "e"]] Option.none
      (fun _ _ => ExecOutcome.ok { data := some (Value.int 1), errors := [] })
      = { data := Option.none, errors := [GError.validationError "e"] }
    ∧ do_graphql { id := 0 } (Except.ok (Node.mk 0 []))
      [fun _ _ _ => [GError.validationError "e"]] Option.none
      (fun _ _ => ExecOutcome.ok { data := some (Value.int 1), errors := [] })
      = do_graphql { id := 0 } (Except.ok (Node.mk 0 []))
      [fun _ _ _ => [GError.validationError "e"]] Option.none
      (fun _ _ => ExecOutcome.raisesExecution (GError.executionError "x")) :=
  ⟨(do_graphql_refuses_invalid { id := 0 } (Node.mk 0 [])
      [fun _ _ _ => [GError.validationError "e"]] Option.none
      (fun _ _ => ExecOutcome.ok { data := some (Value.int 1), errors := [] })
      (fun _ _ => ExecOutcome.raisesExecution (GError.executionError "x")) rfl).1,
    (do_graphql_refuses_invalid { id := 0 } (Node.mk 0 [])
      [fun _ _ _ => [GError.validationError "e"]] Option.none
      (fun _ _ => ExecOutcome.ok { data := some (Value.int 1), errors := [] })
      (fun _ _ => ExecOutcome.raisesExecution (GError.executionError "x")) rfl).2⟩

end PyGql
